import Mathlib

set_option maxHeartbeats 1000000

/-
A shallow embedding of `src/hypothesis/_settings.py`: the option registry,
immutable settings snapshots, profiles, the process-wide default, scoped
overrides and the deprecation notifier.

Modelling conventions:
* Python dictionaries (instance `__dict__`, keyword arguments, `_db_cache`,
  `settings._profiles`) are association lists looked up by first match.
* Python exceptions are the `Err` sum type; functions that can raise return
  `Except Err _`.  `load_profile` instead returns `GlobalState × Option Err`
  because its first mutation persists even when it subsequently raises.
* The module-level mutable globals (`_db_cache`, `settings._profiles`,
  `settings._current_profile`, `default_variable`) form `GlobalState`,
  threaded explicitly.
* `ExampleDatabase` objects are identified by the `Nat` identity stamped when
  they are created; `GlobalState.nextDbId` is the source of fresh identities.
* A zero-argument factory default is a Lean function `Unit → Value`; reads
  report how many times they invoked a factory in their `Nat` component.
-/

/-- Python runtime values stored in settings dictionaries.  `notSet` is the
`hypothesis.utils.conventions.not_set` sentinel, `threadLocal` stands for the
`threading.local()` object stored under `storage`, `db i` is an
`ExampleDatabase` object with identity `i`. -/
inductive Value where
  | int (n : Int)
  | bool (b : Bool)
  | str (s : String)
  | none
  | notSet
  | verbosity (level : Nat)
  | phases (ps : List Nat)
  | healthChecks (cs : List Nat)
  | db (id : Nat)
  | threadLocal
  deriving DecidableEq, Repr, Inhabited

/-- Exceptions raised by the settings module. -/
inductive Err where
  | invalidArgument (msg : String)
  | attributeError (msg : String)
  | deprecationWarning (msg : String)
  | assertionError
  | indexError
  deriving DecidableEq, Repr, Inhabited

/-- First-match lookup in an association list (Python `dict` access). -/
def alookup {κ α : Type} [DecidableEq κ] : List (κ × α) → κ → Option α
  | [], _ => Option.none
  | (k, v) :: rest, n => if k = n then some v else alookup rest n

/-- Update-or-append in an association list (Python `dict` assignment). -/
def aset {κ α : Type} [DecidableEq κ] : List (κ × α) → κ → α → List (κ × α)
  | [], n, v => [(n, v)]
  | (k, w) :: rest, n, v => if k = n then (k, v) :: rest else (k, w) :: aset rest n v

/-- Remove the first binding of a key (Python `dict.pop`). -/
def aremove {κ α : Type} [DecidableEq κ] : List (κ × α) → κ → List (κ × α)
  | [], _ => []
  | (k, w) :: rest, n => if k = n then rest else (k, w) :: aremove rest n

/-- The keys of an association list. -/
def akeys {κ α : Type} (l : List (κ × α)) : List κ :=
  l.map Prod.fst

/-- A settings object: its Python `__dict__`.  Option values, the `_database`
override, the `_construction_complete` flag and `storage` all live here, as
they do on the Python instance. -/
structure SettingsObj where
  dict : List (String × Value)
  deriving DecidableEq, Repr, Inhabited

/-- The declared default of an option: a plain value, or a zero-argument
factory (`inspect.isfunction` in `settings.__getattr__`). -/
inductive SettingDefault where
  | value (v : Value)
  | factory (f : Unit → Value)

/-- One entry of `all_settings`: the `Setting` namedtuple. -/
structure Setting where
  name : String
  description : String
  default : SettingDefault
  options : Option (List Value)
  validator : Option (Value → Except Err Value)

/-- The module-level mutable globals of `_settings.py`.  `defaultVar` is the
the view the calling thread has of `default_variable` (a thread-local cell whose unset
value is `None`). -/
structure GlobalState where
  dbCache : List (Value × Nat)
  nextDbId : Nat
  profiles : List (String × SettingsObj)
  currentProfile : Option String
  defaultVar : Option SettingsObj
  deriving DecidableEq, Repr, Inhabited

/-- Lookup in `all_settings`, which maps option names to their declarations. -/
def findSetting : List Setting → String → Option Setting
  | [], _ => Option.none
  | s :: rest, n => if s.name = n then some s else findSetting rest n

/-- `settings._WHITELISTED_REAL_PROPERTIES`. -/
def WHITELIST : List String :=
  ["_database", "_construction_complete", "storage"]

/-- Evaluate a declared default, reporting how many factory calls were made
(`settings.__getattr__` lines 122-125: a function default is called, and the
result is returned without being stored anywhere). -/
def evalDefault : SettingDefault → Value × Nat
  | .value v => (v, 0)
  | .factory f => (f (), 1)

/-- Reading an attribute on a settings object: the `settingsProperty`
descriptor returns the instance `__dict__` entry if present; on `KeyError`
Python falls back to `settings.__getattr__`, which evaluates the registry
default (calling a factory default each time) or raises `AttributeError`.
The `Nat` component counts factory evaluations performed by this read. -/
def settings_getattr (reg : List Setting) (obj : SettingsObj) (name : String) :
    Except Err (Value × Nat) :=
  match alookup obj.dict name with
  | some v => .ok (v, 0)
  | Option.none =>
    match findSetting reg name with
    | some s => .ok (evalDefault s.default)
    | Option.none => .error (.attributeError ("settings has no attribute " ++ name))

/-- The value an attribute read resolves to, ignoring the factory-call count. -/
def resolveOption (reg : List Setting) (obj : SettingsObj) (name : String) :
    Except Err Value :=
  (settings_getattr reg obj name).map Prod.fst

/-- Whether `self._construction_complete` is truthy on the object. -/
def isComplete (obj : SettingsObj) : Bool :=
  decide (alookup obj.dict "_construction_complete" = some (Value.bool true))

/-- The message of the immutability error in `settings.__setattr__`. -/
def immutableMsg : String :=
  "settings objects are immutable and may not be assigned to after construction."

/-- `settings.__setattr__` (lines 199-227): whitelisted real properties are
stored directly; `database` always raises (after asserting construction is
complete); registered options raise once construction is complete and are
otherwise stored after the allowed-options check; anything else raises the
missing-attribute error. -/
def settings_setattr (reg : List Setting) (obj : SettingsObj) (name : String)
    (value : Value) : Except Err SettingsObj :=
  if name ∈ WHITELIST then
    .ok ⟨aset obj.dict name value⟩
  else if name = "database" then
    (if isComplete obj then .error (.attributeError immutableMsg)
     else .error .assertionError)
  else
    match findSetting reg name with
    | some s =>
      if isComplete obj then .error (.attributeError immutableMsg)
      else
        match s.options with
        | some opts =>
          if value ∈ opts then .ok ⟨aset obj.dict name value⟩
          else .error (.invalidArgument ("Invalid " ++ name))
        | Option.none => .ok ⟨aset obj.dict name value⟩
    | Option.none => .error (.attributeError ("No such setting " ++ name))

/-- Run the validator of the option on an explicitly supplied value, when the
option declares one (`settings.__init__` lines 142-144). -/
def validateKw (s : Setting) (v : Value) : Except Err Value :=
  match s.validator with
  | some f => f v
  | Option.none => .ok v

/-- The `settings.database` property (lines 237-257).  If `_database` is the
`not_set` sentinel and `database_file` resolves to a non-`None` path, the
process-wide cache supplies (creating on a miss) the `ExampleDatabase` for
that path; if `_database` is `not_set` and there is no path, `None` is stored
back onto the object and returned; otherwise the explicit override is
returned.  Returns the value, the (possibly updated) receiver and the
(possibly updated) global state. -/
def settings_database (reg : List Setting) (obj : SettingsObj) (st : GlobalState) :
    Except Err (Value × SettingsObj × GlobalState) :=
  match alookup obj.dict "_database" with
  | Option.none => .error (.attributeError "_database")
  | some dbv =>
    match settings_getattr reg obj "database_file" with
    | .error e => .error e
    | .ok (fileV, _) =>
      if dbv = Value.notSet ∧ fileV ≠ Value.none then
        match alookup st.dbCache fileV with
        | some i => .ok (Value.db i, obj, st)
        | Option.none =>
          .ok (Value.db st.nextDbId, obj,
            { st with dbCache := (fileV, st.nextDbId) :: st.dbCache,
                      nextDbId := st.nextDbId + 1 })
      else if dbv = Value.notSet then
        .ok (Value.none, ⟨aset obj.dict "_database" Value.none⟩, st)
      else
        .ok (dbv, obj, st)

/-- The message of the unknown-profile error in `settings.get_profile`. -/
def profileNotRegisteredMsg (name : String) : String :=
  "Profile " ++ name ++ " has not been registered"

/-- `settings.get_profile` (lines 280-297). -/
def get_profile (st : GlobalState) (name : String) : Except Err SettingsObj :=
  match alookup st.profiles name with
  | some p => .ok p
  | Option.none => .error (.invalidArgument (profileNotRegisteredMsg name))

/-- `settings.register_profile` (lines 269-278): stores or replaces the
mapping from the name to the snapshot. -/
def register_profile (st : GlobalState) (name : String) (s : SettingsObj) :
    GlobalState :=
  { st with profiles := aset st.profiles name s }

/-- `settings.load_profile` (lines 299-309): records the name as the current
profile, then looks the profile up; the unknown-profile error propagates
after the recording, so the pair carries the mutated state alongside the
optional error. -/
def load_profile (st : GlobalState) (name : String) : GlobalState × Option Err :=
  let st1 := { st with currentProfile := some name }
  match get_profile st1 name with
  | .ok p => ({ st1 with defaultVar := some p }, Option.none)
  | .error e => (st1, some e)

/-- `settingsMeta.default` (lines 85-93): the `default_variable`
value if set, otherwise a lazy re-load of the last-loaded profile (raising
what `load_profile` raises), otherwise `None`. -/
def settingsMeta_default (st : GlobalState) :
    GlobalState × Except Err (Option SettingsObj) :=
  match st.defaultVar with
  | some v => (st, .ok (some v))
  | Option.none =>
    match st.currentProfile with
    | some name =>
      match load_profile st name with
      | (st1, some e) => (st1, .error e)
      | (st1, Option.none) => (st1, .ok st1.defaultVar)
    | Option.none => (st, .ok Option.none)

/-- `defaults = parent or settings.default` (line 137): a given parent short
circuits, otherwise the live default is read (possibly lazily loading). -/
def resolveDefaults (st : GlobalState) (parent : Option SettingsObj) :
    GlobalState × Except Err (Option SettingsObj) :=
  match parent with
  | some p => (st, .ok (some p))
  | Option.none => settingsMeta_default st

/-- The per-option loop of `settings.__init__` (lines 139-144): an option
with no supplied override (absent or the `not_set` sentinel) inherits the
resolved value of the inheritance source; a supplied override is passed
through the validator of the option when one is declared. -/
def inheritLoop (reg : List Setting) (defaults : SettingsObj) :
    List Setting → List (String × Value) → Except Err (List (String × Value))
  | [], kwargs => .ok kwargs
  | s :: rest, kwargs =>
    if (alookup kwargs s.name).getD Value.notSet = Value.notSet then
      match settings_getattr reg defaults s.name with
      | .error e => .error e
      | .ok (v, _) => inheritLoop reg defaults rest (aset kwargs s.name v)
    else
      match s.validator with
      | some f =>
        match f ((alookup kwargs s.name).getD Value.notSet) with
        | .error e => .error e
        | .ok v => inheritLoop reg defaults rest (aset kwargs s.name v)
      | Option.none => inheritLoop reg defaults rest kwargs

/-- The storing loop of `settings.__init__` (lines 147-151): every keyword
name must be a registered option, and each value is stored through
`settings.__setattr__`. -/
def applyKwargs (reg : List Setting) : SettingsObj → List (String × Value) →
    Except Err SettingsObj
  | obj, [] => .ok obj
  | obj, (n, v) :: rest =>
    match findSetting reg n with
    | Option.none => .error (.invalidArgument ("Invalid argument " ++ n))
    | some _ =>
      match settings_setattr reg obj n v with
      | .error e => .error e
      | .ok obj1 => applyKwargs reg obj1 rest

/-- The tail of `settings.__init__` (lines 147-153): store the processed
keyword arguments, then `storage` and the completion flag. -/
def finishInit (reg : List Setting) (obj : SettingsObj)
    (kwargs : List (String × Value)) (st : GlobalState) :
    Except Err (SettingsObj × GlobalState) :=
  match applyKwargs reg obj kwargs with
  | .error e => .error e
  | .ok obj1 =>
    .ok (⟨aset (aset obj1.dict "storage" Value.threadLocal)
            "_construction_complete" (Value.bool true)⟩, st)

/-- `settings.__init__` (lines 129-153).  `_construction_complete` is set to
`False`, the `database` keyword is popped into `_database`, the
`database_file` keyword is captured, the inheritance source is determined,
the per-option loop runs, the database override is copied from the
resolved `database` of the inheritance source when neither a `database` nor a
`database_file` keyword was supplied, and the keywords are stored. -/
def settings_init (reg : List Setting) (st : GlobalState)
    (parent : Option SettingsObj) (kwargs : List (String × Value)) :
    Except Err (SettingsObj × GlobalState) :=
  let dbArg := (alookup kwargs "database").getD Value.notSet
  let kwargs1 := aremove kwargs "database"
  let databaseFile := (alookup kwargs1 "database_file").getD Value.notSet
  let dict2 := aset (aset [] "_construction_complete" (Value.bool false))
    "_database" dbArg
  match resolveDefaults st parent with
  | (_, .error e) => .error e
  | (st1, .ok Option.none) => finishInit reg ⟨dict2⟩ kwargs1 st1
  | (st1, .ok (some defaults)) =>
    match inheritLoop reg defaults reg kwargs1 with
    | .error e => .error e
    | .ok kwargs2 =>
      if dbArg = Value.notSet ∧ databaseFile = Value.notSet then
        match settings_database reg defaults st1 with
        | .error e => .error e
        | .ok (dv, _, st2) => finishInit reg ⟨aset dict2 "_database" dv⟩ kwargs2 st2
      else
        finishInit reg ⟨dict2⟩ kwargs2 st1

/-- Python truthiness of the modelled values. -/
def truthy : Value → Bool
  | .int n => n ≠ 0
  | .bool b => b
  | .str s => s ≠ ""
  | .none => false
  | .notSet => true
  | .verbosity _ => true
  | .phases ps => ps ≠ []
  | .healthChecks cs => cs ≠ []
  | .db _ => true
  | .threadLocal => true

/-- The non-raising outcomes of `note_deprecation`: a warning was emitted, or
nothing was. -/
inductive DepOutcome where
  | warned (msg : String)
  | silent
  deriving DecidableEq, Repr, Inhabited

/-- `note_deprecation` (lines 562-577).  A missing explicit snapshot falls
back to the live default (asserting it is not `None`); `strict` is the
conjunction of the truthy `strict` of the live default and of the effective
snapshot (Python `and` on two values branches on exactly this conjunction);
the `verbosity` of the effective snapshot is read before branching; a strict
outcome raises the deprecation warning, otherwise a verbosity level above
quiet (level 0) warns and execution continues, and quiet stays silent. -/
def note_deprecation (reg : List Setting) (st : GlobalState) (message : String)
    (sOpt : Option SettingsObj) : Except Err (DepOutcome × GlobalState) :=
  match (match sOpt with
         | Option.none => settingsMeta_default st
         | some s => (st, .ok (some s))) with
  | (_, .error e) => .error e
  | (st1, .ok sRes) =>
    match sRes with
    | Option.none => .error .assertionError
    | some s =>
      match settingsMeta_default st1 with
      | (_, .error e) => .error e
      | (st2, .ok dOpt) =>
        match dOpt with
        | Option.none => .error (.attributeError "strict")
        | some d =>
          match settings_getattr reg d "strict" with
          | .error e => .error e
          | .ok (ds, _) =>
            match settings_getattr reg s "strict" with
            | .error e => .error e
            | .ok (ss, _) =>
              match settings_getattr reg s "verbosity" with
              | .error e => .error e
              | .ok (vv, _) =>
                if truthy ds && truthy ss then
                  .error (.deprecationWarning message)
                else
                  match vv with
                  | Value.verbosity lvl =>
                    if 0 < lvl then .ok (.warned message, st2)
                    else .ok (.silent, st2)
                  | _ => .error (.attributeError "verbosity")

/-- The state seen by the scoped-override machinery: the default cell plus
the thread-local `defaults_stack` of each settings object. -/
structure ScopeState where
  core : GlobalState
  stackMap : SettingsObj → List (Option SettingsObj)

/-- `settings.__enter__` (lines 259-263).  Modelled from the spec: the body
of `DynamicVariable.with_value` (the file
`hypothesis/utils/dynamicvariables.py` of the repository is not among the
sources here) is,
per the spec, a restore token capturing the current value of the default cell;
entering pushes that token on the stack of the object and installs it as
the default. -/
def settings_enter (s : SettingsObj) (st : ScopeState) : ScopeState :=
  { core := { st.core with defaultVar := some s },
    stackMap := fun t =>
      if t = s then st.core.defaultVar :: st.stackMap s else st.stackMap t }

/-- `settings.__exit__` (lines 265-267).  Modelled from the spec: popping the
most recent restore token reinstates it as the value of the default cell,
unconditionally; popping an empty stack raises `IndexError`. -/
def settings_exit (s : SettingsObj) (st : ScopeState) : Except Err ScopeState :=
  match st.stackMap s with
  | [] => .error .indexError
  | old :: rest =>
    .ok { core := { st.core with defaultVar := old },
          stackMap := fun t => if t = s then rest else st.stackMap t }

/-- A well-nested trace: enter each snapshot in order, then exit them in
reverse order (exactly what nested `with` blocks perform on every exit path,
normal or exceptional, because each `__exit__` is guaranteed to run). -/
def runNested : ScopeState → List SettingsObj → Except Err ScopeState
  | st, [] => .ok st
  | st, s :: rest =>
    match runNested (settings_enter s st) rest with
    | .error e => .error e
    | .ok st2 => settings_exit s st2

/-- `_validate_phases` (lines 514-521) on the representable values: `None`
becomes the full phase tuple, a phase tuple is accepted when every tag is a
`Phase` (tags 0-3), anything else raises `InvalidArgument`. -/
def _validate_phases : Value → Except Err Value
  | Value.none => .ok (Value.phases [0, 1, 2, 3])
  | Value.phases ps =>
    if ps.all (fun p => p < 4) then .ok (Value.phases ps)
    else .error (.invalidArgument "not a valid phase")
  | _ => .error (.invalidArgument "not a valid phase")

/-- The `min_satisfying_examples` declaration (line 318). -/
def minSatisfyingExamplesSetting : Setting :=
  ⟨"min_satisfying_examples", "Raise Unsatisfiable below this many examples",
    .value (Value.int 5), Option.none, Option.none⟩

/-- The `max_examples` declaration (line 328). -/
def maxExamplesSetting : Setting :=
  ⟨"max_examples", "Stop after this many satisfying examples",
    .value (Value.int 200), Option.none, Option.none⟩

/-- The `max_iterations` declaration (line 337). -/
def maxIterationsSetting : Setting :=
  ⟨"max_iterations", "Stop after this many iterations of the example loop",
    .value (Value.int 1000), Option.none, Option.none⟩

/-- The `max_mutations` declaration (line 347). -/
def maxMutationsSetting : Setting :=
  ⟨"max_mutations", "Variations on a single example before a fresh start",
    .value (Value.int 10), Option.none, Option.none⟩

/-- The `buffer_size` declaration (line 358). -/
def bufferSizeSetting : Setting :=
  ⟨"buffer_size", "The size of the underlying data used to generate examples",
    .value (Value.int 8192), Option.none, Option.none⟩

/-- The `max_shrinks` declaration (line 369). -/
def maxShrinksSetting : Setting :=
  ⟨"max_shrinks", "Give up after this many successful shrinks",
    .value (Value.int 500), Option.none, Option.none⟩

/-- The `timeout` declaration (line 379). -/
def timeoutSetting : Setting :=
  ⟨"timeout", "Soft time limit in seconds",
    .value (Value.int 60), Option.none, Option.none⟩

/-- The `derandomize` declaration (line 391). -/
def derandomizeSetting : Setting :=
  ⟨"derandomize", "Run in deterministic mode",
    .value (Value.bool false), Option.none, Option.none⟩

/-- The `strict` declaration (line 405); the declared default comes from the
`HYPOTHESIS_STRICT_MODE` environment variable, taken as a parameter here
(environment resolution is an external collaborator). -/
def strictSetting (strictDefault : Bool) : Setting :=
  ⟨"strict", "Turn warnings into errors",
    .value (Value.bool strictDefault), Option.none, Option.none⟩

/-- The `database_file` declaration (line 419): a zero-argument factory
default consulting the environment and the hypothesis home directory, taken
as a parameter here (both are external collaborators). -/
def databaseFileSetting (f : Unit → Value) : Setting :=
  ⟨"database_file", "Where to save examples", .factory f,
    Option.none, Option.none⟩

/-- The `verbosity` declaration (line 506): the default comes from the
`HYPOTHESIS_VERBOSITY_LEVEL` environment variable (a parameter here), and the
allowed options are the four `Verbosity` levels. -/
def verbositySetting (verbosityDefault : Nat) : Setting :=
  ⟨"verbosity", "Control the verbosity level of Hypothesis messages",
    .value (Value.verbosity verbosityDefault),
    some [Value.verbosity 0, Value.verbosity 1, Value.verbosity 2,
      Value.verbosity 3],
    Option.none⟩

/-- The `phases` declaration (line 524). -/
def phasesSetting : Setting :=
  ⟨"phases", "Control which phases should be run",
    .value (Value.phases [0, 1, 2, 3]), Option.none, some _validate_phases⟩

/-- The `stateful_step_count` declaration (line 531). -/
def statefulStepCountSetting : Setting :=
  ⟨"stateful_step_count", "Number of steps to run a stateful program for",
    .value (Value.int 50), Option.none, Option.none⟩

/-- The `perform_health_check` declaration (line 539). -/
def performHealthCheckSetting : Setting :=
  ⟨"perform_health_check", "Run a preliminary health check",
    .value (Value.bool true), Option.none, Option.none⟩

/-- The `suppress_health_check` declaration (line 548). -/
def suppressHealthCheckSetting : Setting :=
  ⟨"suppress_health_check", "A list of health checks to disable",
    .value (Value.healthChecks []), Option.none, Option.none⟩

/-- The contents of `all_settings` after the module body has run, in
registration order, parameterised by the three environment-derived
defaults. -/
def registry (strictDefault : Bool) (verbosityDefault : Nat)
    (databaseFileDefault : Unit → Value) : List Setting :=
  [minSatisfyingExamplesSetting, maxExamplesSetting, maxIterationsSetting,
   maxMutationsSetting, bufferSizeSetting, maxShrinksSetting, timeoutSetting,
   derandomizeSetting, strictSetting strictDefault,
   databaseFileSetting databaseFileDefault, verbositySetting verbosityDefault,
   phasesSetting, statefulStepCountSetting, performHealthCheckSetting,
   suppressHealthCheckSetting]

/-- The registry with no environment overrides: `strict` defaults to false,
`verbosity` to normal, and the `database_file` factory yields a fixed home
path. -/
def registryNoEnv : List Setting :=
  registry false 1 (fun _ => Value.str "examples")

/-- Whether an `Except` result is a success. -/
def exceptIsOk {α : Type} (e : Except Err α) : Bool :=
  match e with
  | .ok _ => true
  | .error _ => false

/-- The registry well-formedness the Python module guarantees: option names
are distinct and collide neither with the whitelisted real properties nor
with the `database` property. -/
def regNamesOK (reg : List Setting) : Prop :=
  (reg.map Setting.name).Nodup ∧
    ∀ s ∈ reg, s.name ∉ WHITELIST ∧ s.name ≠ "database"

instance (reg : List Setting) : Decidable (regNamesOK reg) := by
  unfold regNamesOK
  exact instDecidableAnd

/-- The invariant of `_db_cache`: every cached identity is below the fresh
counter, and distinct paths hold distinct identities. -/
def CacheWF (st : GlobalState) : Prop :=
  (∀ e ∈ st.dbCache, e.2 < st.nextDbId) ∧
    ∀ a ∈ st.dbCache, ∀ b ∈ st.dbCache, a.2 = b.2 → a.1 = b.1

/-- A fresh global state: empty cache, no profiles, nothing loaded. -/
def emptyState : GlobalState :=
  ⟨[], 0, [], Option.none, Option.none⟩

/-- A fully constructed snapshot used as a concrete parent: every option has
a stored value (`max_examples` deliberately not at its declared default), the
database override is unresolved and `database_file` is an explicit path. -/
def sampleDict : List (String × Value) :=
  [("_construction_complete", Value.bool true),
   ("_database", Value.notSet),
   ("storage", Value.threadLocal),
   ("min_satisfying_examples", Value.int 5),
   ("max_examples", Value.int 321),
   ("max_iterations", Value.int 1000),
   ("max_mutations", Value.int 10),
   ("buffer_size", Value.int 8192),
   ("max_shrinks", Value.int 500),
   ("timeout", Value.int 60),
   ("derandomize", Value.bool false),
   ("strict", Value.bool false),
   ("database_file", Value.str "f.db"),
   ("verbosity", Value.verbosity 1),
   ("phases", Value.phases [0, 1, 2, 3]),
   ("stateful_step_count", Value.int 50),
   ("perform_health_check", Value.bool true),
   ("suppress_health_check", Value.healthChecks [])]

/-- The sample parent snapshot. -/
def sampleSnapshot : SettingsObj :=
  ⟨sampleDict⟩

/-- Extract a successful construction result (used to name concrete children
in witnesses). -/
def exceptGet (e : Except Err (SettingsObj × GlobalState)) :
    SettingsObj × GlobalState :=
  match e with
  | .ok r => r
  | .error _ => (⟨[]⟩, emptyState)

/-- The child of `sampleSnapshot` constructed with no overrides, together
with the resulting global state. -/
def childRes : SettingsObj × GlobalState :=
  exceptGet (settings_init registryNoEnv emptyState (some sampleSnapshot) [])

/-- The very first snapshot the module constructs (line 557), before any
default exists: no option is stored on it, so every option read falls back
to the registry declaration. -/
def bootstrapObj : SettingsObj :=
  ⟨[("_construction_complete", Value.bool true),
    ("_database", Value.notSet),
    ("storage", Value.threadLocal)]⟩

/-- A global state whose current default is the sample snapshot. -/
def sampleDefaultState : GlobalState :=
  ⟨[], 0, [], Option.none, some sampleSnapshot⟩

/-- The global state after the database for path `f.db` has been created
with identity 0. -/
def cacheState : GlobalState :=
  ⟨[(Value.str "f.db", 0)], 1, [], Option.none, Option.none⟩


theorem akeys_nil {κ α : Type} : akeys ([] : List (κ × α)) = [] :=
  rfl

theorem akeys_cons {κ α : Type} (k : κ) (w : α) (rest : List (κ × α)) :
    akeys ((k, w) :: rest) = k :: akeys rest :=
  rfl

theorem alookup_aset_self {κ α : Type} [DecidableEq κ] (l : List (κ × α)) (n : κ)
    (v : α) : alookup (aset l n v) n = some v := by
  induction l with
  | nil => simp [aset, alookup]
  | cons kv rest ih =>
    obtain ⟨k, w⟩ := kv
    by_cases h : k = n
    · subst h; simp [aset, alookup]
    · simp [aset, alookup, h, ih]

theorem alookup_aset_ne {κ α : Type} [DecidableEq κ] (l : List (κ × α)) (n m : κ)
    (v : α) (h : m ≠ n) : alookup (aset l n v) m = alookup l m := by
  induction l with
  | nil => simp [aset, alookup, Ne.symm h]
  | cons kv rest ih =>
    obtain ⟨k, w⟩ := kv
    by_cases hk : k = n
    · subst hk
      simp [aset, alookup, Ne.symm h]
    · simp [aset, alookup, hk, ih]

theorem alookup_aremove_ne {κ α : Type} [DecidableEq κ] (l : List (κ × α)) (n m : κ)
    (h : m ≠ n) : alookup (aremove l n) m = alookup l m := by
  induction l with
  | nil => simp [aremove]
  | cons kv rest ih =>
    obtain ⟨k, w⟩ := kv
    by_cases hk : k = n
    · subst hk
      simp [aremove, alookup, Ne.symm h]
    · simp [aremove, alookup, hk, ih]

theorem alookup_eq_none_of_not_mem {κ α : Type} [DecidableEq κ]
    (l : List (κ × α)) (n : κ) (h : n ∉ akeys l) : alookup l n = Option.none := by
  induction l with
  | nil => rfl
  | cons kv rest ih =>
    obtain ⟨k, w⟩ := kv
    rw [akeys_cons, List.mem_cons, not_or] at h
    simp [alookup, Ne.symm h.1, ih h.2]

theorem mem_akeys_of_alookup {κ α : Type} [DecidableEq κ] (l : List (κ × α))
    (n : κ) (v : α) (h : alookup l n = some v) : n ∈ akeys l := by
  by_contra hmem
  rw [alookup_eq_none_of_not_mem l n hmem] at h
  exact Option.noConfusion h

theorem mem_akeys_aset {κ α : Type} [DecidableEq κ] (l : List (κ × α)) (n m : κ)
    (v : α) (h : m ∈ akeys (aset l n v)) : m ∈ akeys l ∨ m = n := by
  induction l with
  | nil =>
    simp only [aset, akeys_cons, akeys_nil, List.mem_singleton] at h
    exact Or.inr h
  | cons kv rest ih =>
    obtain ⟨k, w⟩ := kv
    by_cases hk : k = n
    · subst hk
      simp only [aset, eq_self_iff_true, if_true, akeys_cons, List.mem_cons] at h
      simp only [akeys_cons, List.mem_cons]
      tauto
    · simp only [aset, if_neg hk, akeys_cons, List.mem_cons] at h
      simp only [akeys_cons, List.mem_cons]
      rcases h with h | h
      · exact Or.inl (Or.inl h)
      · rcases ih h with h2 | h2
        · exact Or.inl (Or.inr h2)
        · exact Or.inr h2

theorem nodup_akeys_aset {κ α : Type} [DecidableEq κ] (l : List (κ × α)) (n : κ)
    (v : α) (h : (akeys l).Nodup) : (akeys (aset l n v)).Nodup := by
  induction l with
  | nil => simp [aset, akeys]
  | cons kv rest ih =>
    obtain ⟨k, w⟩ := kv
    rw [akeys_cons, List.nodup_cons] at h
    by_cases hk : k = n
    · subst hk
      simp only [aset, eq_self_iff_true, if_true, akeys_cons, List.nodup_cons]
      exact h
    · simp only [aset, if_neg hk, akeys_cons, List.nodup_cons]
      refine ⟨fun hmem => ?_, ih h.2⟩
      rcases mem_akeys_aset rest n k v hmem with h2 | h2
      · exact h.1 h2
      · exact hk h2

theorem sublist_akeys_aremove {κ α : Type} [DecidableEq κ] (l : List (κ × α))
    (n : κ) : (akeys (aremove l n)).Sublist (akeys l) := by
  induction l with
  | nil => simp [aremove]
  | cons kv rest ih =>
    obtain ⟨k, w⟩ := kv
    by_cases hk : k = n
    · subst hk
      simp only [aremove, if_pos rfl, akeys_cons]
      exact List.Sublist.cons k (List.Sublist.refl (akeys rest))
    · simp only [aremove, if_neg hk, akeys_cons]
      exact List.Sublist.cons₂ k ih

theorem nodup_akeys_aremove {κ α : Type} [DecidableEq κ] (l : List (κ × α))
    (n : κ) (h : (akeys l).Nodup) : (akeys (aremove l n)).Nodup :=
  (sublist_akeys_aremove l n).nodup h

theorem findSetting_mem_name (reg : List Setting) (n : String) (s : Setting)
    (h : findSetting reg n = some s) : s ∈ reg ∧ s.name = n := by
  induction reg with
  | nil => exact absurd h Option.noConfusion
  | cons t rest ih =>
    by_cases ht : t.name = n
    · simp only [findSetting, if_pos ht] at h
      obtain rfl := Option.some.inj h
      exact ⟨List.mem_cons_self t rest, ht⟩
    · simp only [findSetting, if_neg ht] at h
      obtain ⟨hmem, hname⟩ := ih h
      exact ⟨List.mem_cons_of_mem t hmem, hname⟩

theorem findSetting_exists_of_mem (reg : List Setting) (n : String)
    (h : n ∈ reg.map Setting.name) : ∃ s, findSetting reg n = some s := by
  induction reg with
  | nil => simp at h
  | cons t rest ih =>
    by_cases ht : t.name = n
    · exact ⟨t, by simp [findSetting, ht]⟩
    · simp only [List.map_cons, List.mem_cons] at h
      rcases h with h | h
      · exact absurd h.symm ht
      · obtain ⟨s, hs⟩ := ih h
        exact ⟨s, by simp [findSetting, ht, hs]⟩

theorem not_regname_of_whitelist (reg : List Setting) (n : String)
    (hreg : regNamesOK reg) (hw : n ∈ WHITELIST) : n ∉ reg.map Setting.name := by
  intro hmem
  obtain ⟨s, hs, hname⟩ := List.mem_map.mp hmem
  exact (hreg.2 s hs).1 (hname ▸ hw)

theorem settings_exit_cons (s : SettingsObj) (st : ScopeState)
    (old : Option SettingsObj) (rest : List (Option SettingsObj))
    (h : st.stackMap s = old :: rest) :
    settings_exit s st = .ok { core := { st.core with defaultVar := old },
                                stackMap := fun t => if t = s then rest
                                  else st.stackMap t } := by
  unfold settings_exit
  rw [h]

/-- Exiting a scope entered with the same snapshot restores the whole state:
the restore token is popped and reinstated, and the stack of the object returns to
its previous spine. -/
theorem settings_exit_enter (s : SettingsObj) (st : ScopeState) :
    settings_exit s (settings_enter s st) = .ok st := by
  obtain ⟨⟨a, b, c, d, e⟩, sm⟩ := st
  have hcons : (settings_enter s ⟨⟨a, b, c, d, e⟩, sm⟩).stackMap s
      = e :: sm s := by simp [settings_enter]
  rw [settings_exit_cons _ _ _ _ hcons]
  refine congrArg Except.ok ?_
  show ScopeState.mk ⟨a, b, c, d, e⟩
      (fun t => if t = s then sm s else if t = s then e :: sm s else sm t)
    = ScopeState.mk ⟨a, b, c, d, e⟩ sm
  refine congrArg (ScopeState.mk ⟨a, b, c, d, e⟩) ?_
  funext t
  by_cases ht : t = s
  · subst ht; simp
  · simp [ht]

/-- C4: for every sequence of nested scope entries (entering snapshots as
context managers) followed by matching exits on one thread, the current
default after the last exit equals the current default before the first
entry; the trace of enters and exits is the one the `with` statement
performs on every exit path, including when an exception propagates out of
the innermost scope body, because `__exit__` runs unconditionally.  The
whole state is restored, so in particular the default cell is. -/
theorem scope_restoration (st : ScopeState) (ss : List SettingsObj) :
    runNested st ss = .ok st := by
  induction ss generalizing st with
  | nil => rfl
  | cons s rest ih =>
    unfold runNested
    rw [ih (settings_enter s st)]
    exact settings_exit_enter s st

/-- C5: registering a profile and then loading it succeeds, installs the
registered snapshot as the current default, and the current default then
resolves every option to the same value the registered snapshot resolves it
to. -/
theorem profile_roundtrip (reg : List Setting) (st : GlobalState) (p : String)
    (S : SettingsObj) :
    (load_profile (register_profile st p S) p).2 = Option.none ∧
    (load_profile (register_profile st p S) p).1.defaultVar = some S ∧
    ∃ D, settingsMeta_default (load_profile (register_profile st p S) p).1
        = ((load_profile (register_profile st p S) p).1, .ok (some D)) ∧
      ∀ name : String, resolveOption reg D name = resolveOption reg S name := by
  have hlook : alookup (aset st.profiles p S) p = some S :=
    alookup_aset_self st.profiles p S
  refine ⟨?_, ?_, S, ?_, fun _ => rfl⟩
  · simp [load_profile, register_profile, get_profile, hlook]
  · simp [load_profile, register_profile, get_profile, hlook]
  · simp [load_profile, register_profile, get_profile, hlook, settingsMeta_default]

/-- C10: loading an unregistered profile name raises the unknown-profile
error, but only after recording the name as the current profile, leaving the
profile table and the default cell untouched; a thread whose default cell is
unset (the lazy-resolution path of `settingsMeta.default`) then re-attempts
the load of that unknown name and raises the same error again. -/
theorem load_profile_unknown_state (st : GlobalState) (name : String)
    (h : alookup st.profiles name = Option.none) :
    (load_profile st name).2
      = some (.invalidArgument (profileNotRegisteredMsg name)) ∧
    (load_profile st name).1.currentProfile = some name ∧
    (load_profile st name).1.profiles = st.profiles ∧
    (load_profile st name).1.defaultVar = st.defaultVar ∧
    (settingsMeta_default
        { (load_profile st name).1 with defaultVar := Option.none }).2
      = .error (.invalidArgument (profileNotRegisteredMsg name)) := by
  refine ⟨?_, ?_, ?_, ?_, ?_⟩ <;>
    simp [load_profile, get_profile, h, settingsMeta_default]

/-- Witness for C10 at a concrete state: the empty state has no profile named
`missing`, and loading it fails while recording the name. -/
theorem load_profile_unknown_state_witness :
    alookup emptyState.profiles "missing" = Option.none ∧
    (load_profile emptyState "missing").2
      = some (.invalidArgument (profileNotRegisteredMsg "missing")) ∧
    (load_profile emptyState "missing").1.currentProfile = some "missing" := by
  have h := load_profile_unknown_state emptyState "missing" rfl
  exact ⟨rfl, h.1, h.2.1⟩

/-- C2: once construction is complete, assigning any registered option name,
or the `database` attribute, fails with the immutable-configuration error
(and, the result being an error, no updated object is produced). -/
theorem setattr_immutable (reg : List Setting) (obj : SettingsObj) (name : String)
    (v : Value) (hc : isComplete obj = true) (hw : name ∉ WHITELIST)
    (hn : name ∈ reg.map Setting.name ∨ name = "database") :
    settings_setattr reg obj name v = .error (.attributeError immutableMsg) := by
  unfold settings_setattr
  rw [if_neg hw]
  by_cases hd : name = "database"
  · rw [if_pos hd]
    simp [hc]
  · rw [if_neg hd]
    rcases hn with hn | hn
    · obtain ⟨s, hs⟩ := findSetting_exists_of_mem reg name hn
      rw [hs]
      simp [hc]
    · exact absurd hn hd

/-- Witness for C2: the completed sample snapshot rejects an assignment to
the registered option `max_examples` with the immutability error. -/
theorem setattr_immutable_witness :
    isComplete sampleSnapshot = true ∧
    "max_examples" ∈ registryNoEnv.map Setting.name ∧
    settings_setattr registryNoEnv sampleSnapshot "max_examples" (Value.int 1)
      = .error (.attributeError immutableMsg) :=
  ⟨by decide, by decide,
    setattr_immutable registryNoEnv sampleSnapshot "max_examples" (Value.int 1)
      (by decide) (by decide) (Or.inl (by decide))⟩

/-- C9 counterexample: `storage` is not a registered option name, the sample
snapshot is construction-complete, and yet assigning `storage` succeeds (it
is a whitelisted real property), rather than failing with the
missing-attribute error as the claim states. -/
theorem setattr_storage_not_missing :
    findSetting registryNoEnv "storage" = Option.none ∧
    isComplete sampleSnapshot = true ∧
    settings_setattr registryNoEnv sampleSnapshot "storage" (Value.int 0)
      = .ok ⟨aset sampleSnapshot.dict "storage" (Value.int 0)⟩ :=
  ⟨rfl, by decide, rfl⟩

/-- C9 amended: on a complete snapshot, assigning an attribute whose name is
neither a registered option, nor `database`, nor one of the whitelisted real
properties (`_database`, `_construction_complete`, `storage`) fails with the
missing-attribute error (and, the result being an error, the snapshot is
unchanged). -/
theorem setattr_unregistered_missing (reg : List Setting) (obj : SettingsObj)
    (name : String) (v : Value) (hc : isComplete obj = true)
    (hn : findSetting reg name = Option.none) (hw : name ∉ WHITELIST)
    (hd : name ≠ "database") :
    settings_setattr reg obj name v
      = .error (.attributeError ("No such setting " ++ name)) := by
  unfold settings_setattr
  rw [if_neg hw, if_neg hd, hn]

/-- Witness for the amended C9: assigning the unregistered name `frobnicate`
on the complete sample snapshot raises the missing-attribute error. -/
theorem setattr_unregistered_missing_witness :
    isComplete sampleSnapshot = true ∧
    findSetting registryNoEnv "frobnicate" = Option.none ∧
    settings_setattr registryNoEnv sampleSnapshot "frobnicate" (Value.int 0)
      = .error (.attributeError ("No such setting " ++ "frobnicate")) :=
  ⟨by decide, rfl,
    setattr_unregistered_missing registryNoEnv sampleSnapshot "frobnicate"
      (Value.int 0) (by decide) rfl (by decide) (by decide)⟩

/-- C6 (code bug): the bootstrap snapshot (built by `settings()` at module
line 557 while no default exists) stores no value for `database_file`, and
every read of `database_file` on it evaluates the factory default again (one
factory call per read, result not stored), contradicting the
`define_setting` docstring, which promises the factory result "is stored the
first time it is accessed on any given settings object".  Reads return no
updated object because `settings.__getattr__` performs no store. -/
theorem database_file_factory_reevaluated :
    settings_init registryNoEnv emptyState Option.none []
      = .ok (bootstrapObj, emptyState) ∧
    alookup bootstrapObj.dict "database_file" = Option.none ∧
    settings_getattr registryNoEnv bootstrapObj "database_file"
      = .ok (Value.str "examples", 1) :=
  ⟨rfl, rfl, rfl⟩

/-- C3: with the current default resolving `strict` to `ds`, the effective
snapshot resolving `strict` to `ss` and `verbosity` to level `lvl`,
`note_deprecation` raises the deprecation failure exactly when both `strict`
flags are true; otherwise it stays silent at the quiet level and warns (and
returns normally) above it. -/
theorem note_deprecation_behavior
    (reg : List Setting) (st : GlobalState) (msg : String)
    (D S : SettingsObj) (ds ss : Bool) (lvl n1 n2 n3 : Nat)
    (hd : st.defaultVar = some D)
    (h1 : settings_getattr reg D "strict" = .ok (Value.bool ds, n1))
    (h2 : settings_getattr reg S "strict" = .ok (Value.bool ss, n2))
    (h3 : settings_getattr reg S "verbosity" = .ok (Value.verbosity lvl, n3)) :
    (note_deprecation reg st msg (some S)
        = .error (.deprecationWarning msg) ↔ ds = true ∧ ss = true) ∧
    (¬(ds = true ∧ ss = true) → lvl = 0 →
      note_deprecation reg st msg (some S) = .ok (.silent, st)) ∧
    (¬(ds = true ∧ ss = true) → 0 < lvl →
      note_deprecation reg st msg (some S) = .ok (.warned msg, st)) := by
  have key : note_deprecation reg st msg (some S) =
      (if ds && ss then .error (.deprecationWarning msg)
       else if 0 < lvl then .ok (.warned msg, st) else .ok (.silent, st)) := by
    unfold note_deprecation
    simp [settingsMeta_default, hd, h1, h2, h3, truthy]
  refine ⟨?_, fun hne hz => ?_, fun hne hp => ?_⟩
  · rw [key]
    by_cases hl : 0 < lvl
    · cases ds <;> cases ss <;> simp [hl]
    · cases ds <;> cases ss <;> simp [hl]
  · have hb : (ds && ss) = false := by
      cases ds <;> cases ss <;> simp_all
    rw [key]
    simp [hb, hz]
  · have hb : (ds && ss) = false := by
      cases ds <;> cases ss <;> simp_all
    rw [key]
    simp [hb, hp]

/-- Witness for C3: with the sample snapshot (strict false, verbosity
normal) as both the current default and the effective snapshot, the notifier
warns and execution continues. -/
theorem note_deprecation_behavior_witness :
    sampleDefaultState.defaultVar = some sampleSnapshot ∧
    note_deprecation registryNoEnv sampleDefaultState "m" (some sampleSnapshot)
      = .ok (.warned "m", sampleDefaultState) := by
  have h := note_deprecation_behavior registryNoEnv sampleDefaultState "m"
    sampleSnapshot sampleSnapshot false false 1 0 0 0 rfl rfl rfl rfl
  exact ⟨rfl, h.2.2 (by simp) (by norm_num)⟩

theorem mem_of_alookup {κ α : Type} [DecidableEq κ] (l : List (κ × α)) (k : κ)
    (v : α) (h : alookup l k = some v) : (k, v) ∈ l := by
  induction l with
  | nil => exact Option.noConfusion h
  | cons kv rest ih =>
    obtain ⟨k1, v1⟩ := kv
    by_cases hk : k1 = k
    · subst hk
      simp only [alookup, eq_self_iff_true, if_true, Option.some.injEq] at h
      subst h
      exact List.mem_cons_self _ _
    · simp only [alookup, if_neg hk] at h
      exact List.mem_cons_of_mem _ (ih h)

theorem setattr_ok_dict (reg : List Setting) (obj : SettingsObj) (name : String)
    (v : Value) (obj' : SettingsObj)
    (h : settings_setattr reg obj name v = .ok obj') :
    obj'.dict = aset obj.dict name v := by
  unfold settings_setattr at h
  repeat' split at h
  all_goals
    first
      | exact Except.noConfusion h
      | (obtain rfl := Except.ok.inj h; rfl)

theorem applyKwargs_ok_frame (reg : List Setting) (obj obj' : SettingsObj)
    (items : List (String × Value)) (n : String)
    (h : applyKwargs reg obj items = .ok obj') (hn : n ∉ akeys items) :
    alookup obj'.dict n = alookup obj.dict n := by
  induction items generalizing obj with
  | nil =>
    obtain rfl := Except.ok.inj h
    rfl
  | cons kv rest ih =>
    obtain ⟨m, w⟩ := kv
    rw [akeys_cons, List.mem_cons, not_or] at hn
    simp only [applyKwargs] at h
    cases hf : findSetting reg m with
    | none =>
      rw [hf] at h
      exact Except.noConfusion h
    | some s =>
      rw [hf] at h
      cases hs : settings_setattr reg obj m w with
      | error e =>
        rw [hs] at h
        exact Except.noConfusion h
      | ok obj1 =>
        rw [hs] at h
        rw [ih obj1 h hn.2, setattr_ok_dict reg obj m w obj1 hs,
          alookup_aset_ne obj.dict m n w hn.1]

theorem applyKwargs_ok_stores (reg : List Setting) (obj obj' : SettingsObj)
    (items : List (String × Value)) (n : String) (v : Value)
    (h : applyKwargs reg obj items = .ok obj') (hnd : (akeys items).Nodup)
    (hl : alookup items n = some v) : alookup obj'.dict n = some v := by
  induction items generalizing obj with
  | nil => exact Option.noConfusion hl
  | cons kv rest ih =>
    obtain ⟨m, w⟩ := kv
    rw [akeys_cons, List.nodup_cons] at hnd
    simp only [applyKwargs] at h
    cases hf : findSetting reg m with
    | none =>
      rw [hf] at h
      exact Except.noConfusion h
    | some s =>
      rw [hf] at h
      cases hs : settings_setattr reg obj m w with
      | error e =>
        rw [hs] at h
        exact Except.noConfusion h
      | ok obj1 =>
        rw [hs] at h
        by_cases hm : m = n
        · subst hm
          have hv : w = v := by
            simpa [alookup] using hl
          subst hv
          rw [applyKwargs_ok_frame reg obj1 obj' rest m h hnd.1,
            setattr_ok_dict reg obj m w obj1 hs, alookup_aset_self]
        · have hl' : alookup rest n = some v := by
            simpa [alookup, hm] using hl
          exact ih obj1 h hnd.2 hl'

theorem applyKwargs_keys_registered (reg : List Setting) (obj obj' : SettingsObj)
    (items : List (String × Value)) (n : String)
    (h : applyKwargs reg obj items = .ok obj') (hn : n ∈ akeys items) :
    ∃ s, findSetting reg n = some s := by
  induction items generalizing obj with
  | nil => simp [akeys] at hn
  | cons kv rest ih =>
    obtain ⟨m, w⟩ := kv
    rw [akeys_cons, List.mem_cons] at hn
    simp only [applyKwargs] at h
    cases hf : findSetting reg m with
    | none =>
      rw [hf] at h
      exact Except.noConfusion h
    | some s =>
      rw [hf] at h
      cases hs : settings_setattr reg obj m w with
      | error e =>
        rw [hs] at h
        exact Except.noConfusion h
      | ok obj1 =>
        rw [hs] at h
        rcases hn with rfl | hn
        · exact ⟨s, hf⟩
        · exact ih obj1 h hn

theorem inheritLoop_frame (reg : List Setting) (defaults : SettingsObj)
    (L : List Setting) (kw kw' : List (String × Value)) (n : String)
    (h : inheritLoop reg defaults L kw = .ok kw') (hn : n ∉ L.map Setting.name) :
    alookup kw' n = alookup kw n := by
  induction L generalizing kw with
  | nil =>
    obtain rfl := Except.ok.inj h
    rfl
  | cons u rest ih =>
    rw [List.map_cons, List.mem_cons, not_or] at hn
    simp only [inheritLoop] at h
    by_cases hcond : (alookup kw u.name).getD Value.notSet = Value.notSet
    · rw [if_pos hcond] at h
      cases hgu : settings_getattr reg defaults u.name with
      | error e =>
        rw [hgu] at h
        exact Except.noConfusion h
      | ok p =>
        obtain ⟨vu, cu⟩ := p
        rw [hgu] at h
        rw [ih (aset kw u.name vu) h hn.2,
          alookup_aset_ne kw u.name n vu hn.1]
    · rw [if_neg hcond] at h
      split at h
      next f hvu =>
        cases hfu : f ((alookup kw u.name).getD Value.notSet) with
        | error e =>
          rw [hfu] at h
          exact Except.noConfusion h
        | ok uu =>
          rw [hfu] at h
          rw [ih (aset kw u.name uu) h hn.2,
            alookup_aset_ne kw u.name n uu hn.1]
      next hvu =>
        exact ih kw h hn.2

theorem inheritLoop_nodup (reg : List Setting) (defaults : SettingsObj)
    (L : List Setting) (kw kw' : List (String × Value))
    (h : inheritLoop reg defaults L kw = .ok kw') (hnd : (akeys kw).Nodup) :
    (akeys kw').Nodup := by
  induction L generalizing kw with
  | nil =>
    obtain rfl := Except.ok.inj h
    exact hnd
  | cons u rest ih =>
    simp only [inheritLoop] at h
    by_cases hcond : (alookup kw u.name).getD Value.notSet = Value.notSet
    · rw [if_pos hcond] at h
      cases hgu : settings_getattr reg defaults u.name with
      | error e =>
        rw [hgu] at h
        exact Except.noConfusion h
      | ok p =>
        obtain ⟨vu, cu⟩ := p
        rw [hgu] at h
        exact ih (aset kw u.name vu) h (nodup_akeys_aset kw u.name vu hnd)
    · rw [if_neg hcond] at h
      split at h
      next f hvu =>
        cases hfu : f ((alookup kw u.name).getD Value.notSet) with
        | error e =>
          rw [hfu] at h
          exact Except.noConfusion h
        | ok uu =>
          rw [hfu] at h
          exact ih (aset kw u.name uu) h (nodup_akeys_aset kw u.name uu hnd)
      next hvu =>
        exact ih kw h hnd

theorem inheritLoop_stores_default (reg : List Setting) (defaults : SettingsObj)
    (L : List Setting) (kw kw' : List (String × Value)) (t : Setting)
    (v : Value) (c : Nat)
    (hmem : t ∈ L) (hnd : (L.map Setting.name).Nodup)
    (hcond : (alookup kw t.name).getD Value.notSet = Value.notSet)
    (hg : settings_getattr reg defaults t.name = .ok (v, c))
    (h : inheritLoop reg defaults L kw = .ok kw') :
    alookup kw' t.name = some v := by
  induction L generalizing kw with
  | nil => simp at hmem
  | cons u rest ih =>
    rw [List.map_cons, List.nodup_cons] at hnd
    rcases List.mem_cons.mp hmem with rfl | hmem'
    · simp only [inheritLoop] at h
      rw [if_pos hcond, hg] at h
      rw [inheritLoop_frame reg defaults rest (aset kw t.name v) kw' t.name h hnd.1]
      exact alookup_aset_self kw t.name v
    · have hne : t.name ≠ u.name := by
        intro he
        exact hnd.1 (he ▸ List.mem_map.mpr ⟨t, hmem', rfl⟩)
      simp only [inheritLoop] at h
      by_cases hcu : (alookup kw u.name).getD Value.notSet = Value.notSet
      · rw [if_pos hcu] at h
        cases hgu : settings_getattr reg defaults u.name with
        | error e =>
          rw [hgu] at h
          exact Except.noConfusion h
        | ok p =>
          obtain ⟨vu, cu⟩ := p
          rw [hgu] at h
          refine ih (aset kw u.name vu) hmem' hnd.2 ?_ h
          rw [alookup_aset_ne kw u.name t.name vu hne]
          exact hcond
      · rw [if_neg hcu] at h
        split at h
        next f hvu =>
          cases hfu : f ((alookup kw u.name).getD Value.notSet) with
          | error e =>
            rw [hfu] at h
            exact Except.noConfusion h
          | ok uu =>
            rw [hfu] at h
            refine ih (aset kw u.name uu) hmem' hnd.2 ?_ h
            rw [alookup_aset_ne kw u.name t.name uu hne]
            exact hcond
        next hvu =>
          exact ih kw hmem' hnd.2 hcond h

theorem inheritLoop_stores_override (reg : List Setting) (defaults : SettingsObj)
    (L : List Setting) (kw kw' : List (String × Value)) (t : Setting)
    (w u : Value)
    (hmem : t ∈ L) (hnd : (L.map Setting.name).Nodup)
    (hw : alookup kw t.name = some w) (hwns : w ≠ Value.notSet)
    (hval : validateKw t w = .ok u)
    (h : inheritLoop reg defaults L kw = .ok kw') :
    alookup kw' t.name = some u := by
  induction L generalizing kw with
  | nil => simp at hmem
  | cons x rest ih =>
    rw [List.map_cons, List.nodup_cons] at hnd
    rcases List.mem_cons.mp hmem with rfl | hmem'
    · have hcond : ¬ ((alookup kw t.name).getD Value.notSet = Value.notSet) := by
        rw [hw]
        simpa using hwns
      simp only [inheritLoop] at h
      rw [if_neg hcond] at h
      split at h
      next f hv =>
        have hval2 : f w = Except.ok u := by
          unfold validateKw at hval
          rw [hv] at hval
          exact hval
        rw [hw] at h
        simp only [Option.getD_some] at h
        rw [hval2] at h
        rw [inheritLoop_frame reg defaults rest (aset kw t.name u) kw' t.name h
          hnd.1]
        exact alookup_aset_self kw t.name u
      next hv =>
        have hval2 : w = u := by
          unfold validateKw at hval
          rw [hv] at hval
          exact Except.ok.inj hval
        subst hval2
        rw [inheritLoop_frame reg defaults rest kw kw' t.name h hnd.1]
        exact hw
    · have hne : t.name ≠ x.name := by
        intro he
        exact hnd.1 (he ▸ List.mem_map.mpr ⟨t, hmem', rfl⟩)
      simp only [inheritLoop] at h
      by_cases hcu : (alookup kw x.name).getD Value.notSet = Value.notSet
      · rw [if_pos hcu] at h
        cases hgu : settings_getattr reg defaults x.name with
        | error e =>
          rw [hgu] at h
          exact Except.noConfusion h
        | ok p =>
          obtain ⟨vu, cu⟩ := p
          rw [hgu] at h
          refine ih (aset kw x.name vu) hmem' hnd.2 ?_ h
          rw [alookup_aset_ne kw x.name t.name vu hne]
          exact hw
      · rw [if_neg hcu] at h
        split at h
        next f hvu =>
          cases hfu : f ((alookup kw x.name).getD Value.notSet) with
          | error e =>
            rw [hfu] at h
            exact Except.noConfusion h
          | ok uu =>
            rw [hfu] at h
            refine ih (aset kw x.name uu) hmem' hnd.2 ?_ h
            rw [alookup_aset_ne kw x.name t.name uu hne]
            exact hw
        next hvu =>
          exact ih kw hmem' hnd.2 hw h

theorem init_some_parent_decomp (reg : List Setting) (st : GlobalState)
    (P : SettingsObj) (kwargs : List (String × Value))
    (res : SettingsObj × GlobalState)
    (hinit : settings_init reg st (some P) kwargs = .ok res) :
    ∃ kwargs2 dictBase obj1,
      inheritLoop reg P reg (aremove kwargs "database") = .ok kwargs2 ∧
      applyKwargs reg ⟨dictBase⟩ kwargs2 = .ok obj1 ∧
      res.1.dict = aset (aset obj1.dict "storage" Value.threadLocal)
        "_construction_complete" (Value.bool true) ∧
      (((alookup kwargs "database").getD Value.notSet = Value.notSet ∧
        (alookup (aremove kwargs "database") "database_file").getD Value.notSet
          = Value.notSet) →
        ∃ dv P2, settings_database reg P st = .ok (dv, P2, res.2) ∧
          alookup dictBase "_database" = some dv) := by
  simp only [settings_init, resolveDefaults, finishInit] at hinit
  split at hinit
  next e hloop => exact Except.noConfusion hinit
  next kwargs2 hloop =>
    split at hinit
    next hcond =>
      split at hinit
      next e hdb => exact Except.noConfusion hinit
      next dv P2 st2 hdb =>
        split at hinit
        next e hap => exact Except.noConfusion hinit
        next obj1 hap =>
          obtain rfl := Except.ok.inj hinit
          exact ⟨kwargs2, _, obj1, hloop, hap, rfl,
            fun _ => ⟨dv, P2, hdb, alookup_aset_self _ _ _⟩⟩
    next hcond =>
      split at hinit
      next e hap => exact Except.noConfusion hinit
      next obj1 hap =>
        obtain rfl := Except.ok.inj hinit
        exact ⟨kwargs2, _, obj1, hloop, hap, rfl, fun hc => absurd hc hcond⟩

/-- C1: for a registered option `s` of a well-formed registry and a child
constructed from parent `P`, (a) with no override supplied for `s` (absent
keyword, or the `not_set` sentinel) the child resolves `s` to whatever `P`
resolved it to, and (b) with an explicit override `w` the child resolves `s`
to `validator(w)` when the option declares a validator (given that the
validator succeeded, which construction success implies) and to `w`
otherwise. -/
theorem settings_inheritance (reg : List Setting) (st : GlobalState)
    (P : SettingsObj) (kwargs : List (String × Value)) (s : Setting)
    (res : SettingsObj × GlobalState)
    (hreg : regNamesOK reg) (hkw : (akeys kwargs).Nodup) (hs : s ∈ reg)
    (hinit : settings_init reg st (some P) kwargs = .ok res) :
    ((alookup kwargs s.name).getD Value.notSet = Value.notSet →
      ∀ v c, settings_getattr reg P s.name = .ok (v, c) →
        resolveOption reg res.1 s.name = .ok v) ∧
    (∀ w u, alookup kwargs s.name = some w → w ≠ Value.notSet →
      validateKw s w = .ok u → resolveOption reg res.1 s.name = .ok u) := by
  obtain ⟨kwargs2, dictBase, obj1, hloop, hap, hdict, _⟩ :=
    init_some_parent_decomp reg st P kwargs res hinit
  have hnw : s.name ∉ WHITELIST := (hreg.2 s hs).1
  have hndb : s.name ≠ "database" := (hreg.2 s hs).2
  have hncc : s.name ≠ "_construction_complete" := by
    intro he
    exact hnw (by rw [he]; decide)
  have hnst : s.name ≠ "storage" := by
    intro he
    exact hnw (by rw [he]; decide)
  have hres : ∀ z, alookup obj1.dict s.name = some z →
      resolveOption reg res.1 s.name = .ok z := by
    intro z hz
    have hlk : alookup res.1.dict s.name = some z := by
      rw [hdict, alookup_aset_ne _ _ _ _ hncc, alookup_aset_ne _ _ _ _ hnst]
      exact hz
    unfold resolveOption settings_getattr
    rw [hlk]
    rfl
  have hkw1 : (akeys (aremove kwargs "database")).Nodup :=
    nodup_akeys_aremove kwargs "database" hkw
  have hkw2 : (akeys kwargs2).Nodup :=
    inheritLoop_nodup reg P reg (aremove kwargs "database") kwargs2 hloop hkw1
  constructor
  · intro hcond v c hg
    have hcond' : (alookup (aremove kwargs "database") s.name).getD Value.notSet
        = Value.notSet := by
      rw [alookup_aremove_ne kwargs "database" s.name hndb]
      exact hcond
    have hk2 : alookup kwargs2 s.name = some v :=
      inheritLoop_stores_default reg P reg (aremove kwargs "database") kwargs2 s
        v c hs hreg.1 hcond' hg hloop
    exact hres v (applyKwargs_ok_stores reg ⟨dictBase⟩ obj1 kwargs2 s.name v hap
      hkw2 hk2)
  · intro w u hw hwn hval
    have hw' : alookup (aremove kwargs "database") s.name = some w := by
      rw [alookup_aremove_ne kwargs "database" s.name hndb]
      exact hw
    have hk2 : alookup kwargs2 s.name = some u :=
      inheritLoop_stores_override reg P reg (aremove kwargs "database") kwargs2 s
        w u hs hreg.1 hw' hwn hval hloop
    exact hres u (applyKwargs_ok_stores reg ⟨dictBase⟩ obj1 kwargs2 s.name u hap
      hkw2 hk2)

/-- Witness for C1: the sample parent resolves `max_examples` to 321, and its
child constructed with no overrides resolves `max_examples` to 321 too. -/
theorem settings_inheritance_witness :
    settings_getattr registryNoEnv sampleSnapshot "max_examples"
      = .ok (Value.int 321, 0) ∧
    resolveOption registryNoEnv childRes.1 "max_examples"
      = .ok (Value.int 321) := by
  have h := settings_inheritance registryNoEnv emptyState sampleSnapshot []
    maxExamplesSetting childRes (by decide) (by decide)
    (by unfold registryNoEnv registry
        exact List.mem_cons_of_mem _ (List.mem_cons_self _ _))
    rfl
  exact ⟨rfl, h.1 rfl (Value.int 321) 0 rfl⟩

/-- C7 counterexample: the database override state of the sample parent is the
unresolved sentinel, yet the child constructed from it with no `database` or
`database_file` keyword stores the resolved cached database object (identity
0) as its override, not the unresolved parent state verbatim. -/
theorem database_inherit_not_verbatim :
    alookup sampleSnapshot.dict "_database" = some Value.notSet ∧
    settings_init registryNoEnv emptyState (some sampleSnapshot) []
      = .ok childRes ∧
    alookup childRes.1.dict "_database" = some (Value.db 0) ∧
    Value.db 0 ≠ Value.notSet :=
  ⟨rfl, rfl, rfl, by decide⟩

/-- C7 amended: when neither a `database` nor a `database_file` keyword is
supplied and a parent is given, the stored database override of the child
equals the resolved `database` property value of the parent at construction
time (the
cached database object when the parent has a database file, an explicit null
otherwise); an explicit null is preserved, but the unresolved sentinel is
not. -/
theorem database_inherit_resolved (reg : List Setting) (st : GlobalState)
    (P : SettingsObj) (kwargs : List (String × Value))
    (res : SettingsObj × GlobalState) (dv : Value) (P2 : SettingsObj)
    (st2 : GlobalState)
    (hreg : regNamesOK reg)
    (hdb : (alookup kwargs "database").getD Value.notSet = Value.notSet)
    (hdbf : (alookup kwargs "database_file").getD Value.notSet = Value.notSet)
    (hinit : settings_init reg st (some P) kwargs = .ok res)
    (hpdb : settings_database reg P st = .ok (dv, P2, st2)) :
    alookup res.1.dict "_database" = some dv := by
  obtain ⟨kwargs2, dictBase, obj1, hloop, hap, hdict, hcondpart⟩ :=
    init_some_parent_decomp reg st P kwargs res hinit
  have hdbf' : (alookup (aremove kwargs "database") "database_file").getD
      Value.notSet = Value.notSet := by
    rw [alookup_aremove_ne kwargs "database" "database_file" (by decide)]
    exact hdbf
  obtain ⟨dv2, P3, hdb2, hbase⟩ := hcondpart ⟨hdb, hdbf'⟩
  rw [hpdb] at hdb2
  have htrip := Except.ok.inj hdb2
  have hdv : dv = dv2 := congrArg (fun p => p.1) htrip
  have hnd2 : "_database" ∉ akeys kwargs2 := by
    intro hm
    obtain ⟨t, ht⟩ :=
      applyKwargs_keys_registered reg ⟨dictBase⟩ obj1 kwargs2 "_database" hap hm
    obtain ⟨htm, htn⟩ := findSetting_mem_name reg "_database" t ht
    exact (hreg.2 t htm).1 (by rw [htn]; decide)
  have hobj1 : alookup obj1.dict "_database" = alookup dictBase "_database" :=
    applyKwargs_ok_frame reg ⟨dictBase⟩ obj1 kwargs2 "_database" hap hnd2
  rw [hdict, alookup_aset_ne _ _ _ _ (by decide), alookup_aset_ne _ _ _ _
    (by decide), hobj1, hbase, hdv]

/-- Witness for the amended C7: resolving the database of the sample parent
creates the cached object with identity 0, and the child stores exactly that
object as its override. -/
theorem database_inherit_resolved_witness :
    settings_database registryNoEnv sampleSnapshot emptyState
      = .ok (Value.db 0, sampleSnapshot, cacheState) ∧
    alookup childRes.1.dict "_database" = some (Value.db 0) := by
  refine ⟨rfl, ?_⟩
  exact database_inherit_resolved registryNoEnv emptyState sampleSnapshot []
    childRes (Value.db 0) sampleSnapshot cacheState (by decide) rfl rfl rfl rfl

theorem sdb_hit (reg : List Setting) (o : SettingsObj) (st : GlobalState)
    (f : Value) (i : Nat) (c : Nat)
    (h1 : alookup o.dict "_database" = some Value.notSet)
    (hf : settings_getattr reg o "database_file" = .ok (f, c))
    (hfn : f ≠ Value.none) (hc : alookup st.dbCache f = some i) :
    settings_database reg o st = .ok (Value.db i, o, st) := by
  unfold settings_database
  simp only [h1, hf]
  rw [if_pos ⟨trivial, hfn⟩, hc]

theorem sdb_miss (reg : List Setting) (o : SettingsObj) (st : GlobalState)
    (f : Value) (c : Nat)
    (h1 : alookup o.dict "_database" = some Value.notSet)
    (hf : settings_getattr reg o "database_file" = .ok (f, c))
    (hfn : f ≠ Value.none) (hc : alookup st.dbCache f = Option.none) :
    settings_database reg o st = .ok (Value.db st.nextDbId, o,
      { st with dbCache := (f, st.nextDbId) :: st.dbCache,
                nextDbId := st.nextDbId + 1 }) := by
  unfold settings_database
  simp only [h1, hf]
  rw [if_pos ⟨trivial, hfn⟩, hc]

theorem sdb_same_file (reg : List Setting) (o1 o2 : SettingsObj)
    (st : GlobalState) (f v1 : Value) (o1' : SettingsObj) (st' : GlobalState)
    (c1 c2 : Nat)
    (h1 : alookup o1.dict "_database" = some Value.notSet)
    (h2 : alookup o2.dict "_database" = some Value.notSet)
    (hf1 : settings_getattr reg o1 "database_file" = .ok (f, c1))
    (hf2 : settings_getattr reg o2 "database_file" = .ok (f, c2))
    (hfn : f ≠ Value.none)
    (hcall : settings_database reg o1 st = .ok (v1, o1', st')) :
    settings_database reg o2 st' = .ok (v1, o2, st') := by
  cases hc : alookup st.dbCache f with
  | some i =>
    rw [sdb_hit reg o1 st f i c1 h1 hf1 hfn hc] at hcall
    have ht := Except.ok.inj hcall
    have hv : Value.db i = v1 := congrArg (fun p => p.1) ht
    have hst : st = st' := congrArg (fun p => p.2.2) ht
    rw [← hv, ← hst]
    exact sdb_hit reg o2 st f i c2 h2 hf2 hfn hc
  | none =>
    rw [sdb_miss reg o1 st f c1 h1 hf1 hfn hc] at hcall
    have ht := Except.ok.inj hcall
    have hv : Value.db st.nextDbId = v1 := congrArg (fun p => p.1) ht
    have hst : ({ st with dbCache := (f, st.nextDbId) :: st.dbCache,
                          nextDbId := st.nextDbId + 1 } : GlobalState) = st' :=
      congrArg (fun p => p.2.2) ht
    rw [← hv, ← hst]
    exact sdb_hit reg o2 _ f st.nextDbId c2 h2 hf2 hfn (by simp [alookup])

theorem sdb_distinct_files (reg : List Setting) (o1 o2 : SettingsObj)
    (st st' st'' : GlobalState) (f1 f2 : Value) (i1 i2 : Nat)
    (o1' o2' : SettingsObj) (c1 c2 : Nat)
    (hwf : CacheWF st)
    (h1 : alookup o1.dict "_database" = some Value.notSet)
    (h2 : alookup o2.dict "_database" = some Value.notSet)
    (hf1 : settings_getattr reg o1 "database_file" = .ok (f1, c1))
    (hf2 : settings_getattr reg o2 "database_file" = .ok (f2, c2))
    (hn1 : f1 ≠ Value.none) (hn2 : f2 ≠ Value.none) (hne : f1 ≠ f2)
    (hcall1 : settings_database reg o1 st = .ok (Value.db i1, o1', st'))
    (hcall2 : settings_database reg o2 st' = .ok (Value.db i2, o2', st'')) :
    i1 ≠ i2 := by
  cases hc1 : alookup st.dbCache f1 with
  | some j1 =>
    rw [sdb_hit reg o1 st f1 j1 c1 h1 hf1 hn1 hc1] at hcall1
    have ht1 := Except.ok.inj hcall1
    have hi1 : j1 = i1 := Value.db.inj (congrArg (fun p => p.1) ht1)
    obtain rfl : st = st' := congrArg (fun p => p.2.2) ht1
    cases hc2 : alookup st.dbCache f2 with
    | some j2 =>
      rw [sdb_hit reg o2 st f2 j2 c2 h2 hf2 hn2 hc2] at hcall2
      have hi2 : j2 = i2 :=
        Value.db.inj (congrArg (fun p => p.1) (Except.ok.inj hcall2))
      intro he
      have hj : j1 = j2 := by omega
      have hm1 := mem_of_alookup st.dbCache f1 j1 hc1
      have hm2 := mem_of_alookup st.dbCache f2 j2 hc2
      exact hne (hwf.2 (f1, j1) hm1 (f2, j2) hm2 hj)
    | none =>
      rw [sdb_miss reg o2 st f2 c2 h2 hf2 hn2 hc2] at hcall2
      have hi2 : st.nextDbId = i2 :=
        Value.db.inj (congrArg (fun p => p.1) (Except.ok.inj hcall2))
      have hb : j1 < st.nextDbId := hwf.1 (f1, j1) (mem_of_alookup _ _ _ hc1)
      omega
  | none =>
    rw [sdb_miss reg o1 st f1 c1 h1 hf1 hn1 hc1] at hcall1
    have ht1 := Except.ok.inj hcall1
    have hi1 : st.nextDbId = i1 := Value.db.inj (congrArg (fun p => p.1) ht1)
    have hst : ({ st with dbCache := (f1, st.nextDbId) :: st.dbCache,
                          nextDbId := st.nextDbId + 1 } : GlobalState) = st' :=
      congrArg (fun p => p.2.2) ht1
    have hl2 : alookup st'.dbCache f2 = alookup st.dbCache f2 := by
      rw [← hst]
      simp [alookup, hne]
    cases hc2 : alookup st.dbCache f2 with
    | some j2 =>
      rw [sdb_hit reg o2 st' f2 j2 c2 h2 hf2 hn2 (by rw [hl2]; exact hc2)]
        at hcall2
      have hi2 : j2 = i2 :=
        Value.db.inj (congrArg (fun p => p.1) (Except.ok.inj hcall2))
      have hb : j2 < st.nextDbId := hwf.1 (f2, j2) (mem_of_alookup _ _ _ hc2)
      omega
    | none =>
      rw [sdb_miss reg o2 st' f2 c2 h2 hf2 hn2 (by rw [hl2]; exact hc2)]
        at hcall2
      have hi2 : st'.nextDbId = i2 :=
        Value.db.inj (congrArg (fun p => p.1) (Except.ok.inj hcall2))
      have hn : st'.nextDbId = st.nextDbId + 1 := by rw [← hst]
      omega

theorem sdb_cache_stable (reg : List Setting) (o : SettingsObj)
    (st : GlobalState) (f0 : Value) (i : Nat) (v : Value) (o' : SettingsObj)
    (st' : GlobalState)
    (hl : alookup st.dbCache f0 = some i)
    (hcall : settings_database reg o st = .ok (v, o', st')) :
    alookup st'.dbCache f0 = some i := by
  unfold settings_database at hcall
  split at hcall
  next hdbv => exact Except.noConfusion hcall
  next dbv hdbv =>
    split at hcall
    next e hg => exact Except.noConfusion hcall
    next fileV cx hg =>
      split at hcall
      next hcond =>
        split at hcall
        next j hcj =>
          obtain rfl : st = st' :=
            congrArg (fun p => p.2.2) (Except.ok.inj hcall)
          exact hl
        next hcj =>
          have hst : ({ st with dbCache := (fileV, st.nextDbId) :: st.dbCache,
                                nextDbId := st.nextDbId + 1 } : GlobalState) = st' :=
            congrArg (fun p => p.2.2) (Except.ok.inj hcall)
          rw [← hst]
          have hne : fileV ≠ f0 := by
            intro he
            rw [he, hl] at hcj
            exact Option.noConfusion hcj
          simpa [alookup, hne] using hl
      next hcond =>
        split at hcall
        next hdb2 =>
          obtain rfl : st = st' :=
            congrArg (fun p => p.2.2) (Except.ok.inj hcall)
          exact hl
        next hdb2 =>
          obtain rfl : st = st' :=
            congrArg (fun p => p.2.2) (Except.ok.inj hcall)
          exact hl

theorem sdb_cache_wf (reg : List Setting) (o : SettingsObj) (st : GlobalState)
    (v : Value) (o' : SettingsObj) (st' : GlobalState)
    (hwf : CacheWF st)
    (hcall : settings_database reg o st = .ok (v, o', st')) : CacheWF st' := by
  unfold settings_database at hcall
  split at hcall
  next hdbv => exact Except.noConfusion hcall
  next dbv hdbv =>
    split at hcall
    next e hg => exact Except.noConfusion hcall
    next fileV cx hg =>
      split at hcall
      next hcond =>
        split at hcall
        next j hcj =>
          obtain rfl : st = st' :=
            congrArg (fun p => p.2.2) (Except.ok.inj hcall)
          exact hwf
        next hcj =>
          have hst : ({ st with dbCache := (fileV, st.nextDbId) :: st.dbCache,
                                nextDbId := st.nextDbId + 1 } : GlobalState) = st' :=
            congrArg (fun p => p.2.2) (Except.ok.inj hcall)
          rw [← hst]
          refine ⟨fun e he => ?_, fun a ha b hb hab => ?_⟩
          · rcases List.mem_cons.mp he with rfl | he'
            · exact Nat.lt_succ_self _
            · exact Nat.lt_succ_of_lt (hwf.1 e he')
          · rcases List.mem_cons.mp ha with rfl | ha' <;>
              rcases List.mem_cons.mp hb with rfl | hb'
            · rfl
            · exfalso
              have hab2 : st.nextDbId = b.2 := hab
              have := hwf.1 b hb'
              omega
            · exfalso
              have hab2 : a.2 = st.nextDbId := hab
              have := hwf.1 a ha'
              omega
            · exact hwf.2 a ha' b hb' hab
      next hcond =>
        split at hcall
        next hdb2 =>
          obtain rfl : st = st' :=
            congrArg (fun p => p.2.2) (Except.ok.inj hcall)
          exact hwf
        next hdb2 =>
          obtain rfl : st = st' :=
            congrArg (fun p => p.2.2) (Except.ok.inj hcall)
          exact hwf

/-- C8: (1) two snapshots with an unresolved database override and the same
non-null `database_file` value resolve `database` to the identical cached
object, and the second read changes nothing; (2) under the cache invariant,
distinct non-null file paths yield database objects with distinct
identities; (3) an existing cache entry for a path is never replaced by any
later `database` read, so at most one database object ever exists per path;
(4) every `database` read preserves the cache invariant. -/
theorem db_cache_idempotent :
    (∀ (reg : List Setting) (o1 o2 : SettingsObj) (st : GlobalState)
       (f v1 : Value) (o1' : SettingsObj) (st' : GlobalState) (c1 c2 : Nat),
      alookup o1.dict "_database" = some Value.notSet →
      alookup o2.dict "_database" = some Value.notSet →
      settings_getattr reg o1 "database_file" = .ok (f, c1) →
      settings_getattr reg o2 "database_file" = .ok (f, c2) →
      f ≠ Value.none →
      settings_database reg o1 st = .ok (v1, o1', st') →
      settings_database reg o2 st' = .ok (v1, o2, st')) ∧
    (∀ (reg : List Setting) (o1 o2 : SettingsObj) (st st' st'' : GlobalState)
       (f1 f2 : Value) (i1 i2 : Nat) (o1' o2' : SettingsObj) (c1 c2 : Nat),
      CacheWF st →
      alookup o1.dict "_database" = some Value.notSet →
      alookup o2.dict "_database" = some Value.notSet →
      settings_getattr reg o1 "database_file" = .ok (f1, c1) →
      settings_getattr reg o2 "database_file" = .ok (f2, c2) →
      f1 ≠ Value.none → f2 ≠ Value.none → f1 ≠ f2 →
      settings_database reg o1 st = .ok (Value.db i1, o1', st') →
      settings_database reg o2 st' = .ok (Value.db i2, o2', st'') →
      i1 ≠ i2) ∧
    (∀ (reg : List Setting) (o : SettingsObj) (st : GlobalState) (f0 : Value)
       (i : Nat) (v : Value) (o' : SettingsObj) (st' : GlobalState),
      alookup st.dbCache f0 = some i →
      settings_database reg o st = .ok (v, o', st') →
      alookup st'.dbCache f0 = some i) ∧
    (∀ (reg : List Setting) (o : SettingsObj) (st : GlobalState) (v : Value)
       (o' : SettingsObj) (st' : GlobalState),
      CacheWF st → settings_database reg o st = .ok (v, o', st') →
      CacheWF st') :=
  ⟨fun reg o1 o2 st f v1 o1' st' c1 c2 h1 h2 hf1 hf2 hfn hcall =>
    sdb_same_file reg o1 o2 st f v1 o1' st' c1 c2 h1 h2 hf1 hf2 hfn hcall,
   fun reg o1 o2 st st' st'' f1 f2 i1 i2 o1' o2' c1 c2 hwf h1 h2 hf1 hf2 hn1
       hn2 hne hc1 hc2 =>
    sdb_distinct_files reg o1 o2 st st' st'' f1 f2 i1 i2 o1' o2' c1 c2 hwf h1
      h2 hf1 hf2 hn1 hn2 hne hc1 hc2,
   fun reg o st f0 i v o' st' hl hcall =>
    sdb_cache_stable reg o st f0 i v o' st' hl hcall,
   fun reg o st v o' st' hwf hcall =>
    sdb_cache_wf reg o st v o' st' hwf hcall⟩

/-- Witness for C8: resolving the database of the sample snapshot from the empty
state creates the cached object with identity 0, and resolving it again on a
second snapshot sharing the same file returns the identical object without
changing the state. -/
theorem db_cache_idempotent_witness :
    settings_database registryNoEnv sampleSnapshot emptyState
      = .ok (Value.db 0, sampleSnapshot, cacheState) ∧
    settings_database registryNoEnv sampleSnapshot cacheState
      = .ok (Value.db 0, sampleSnapshot, cacheState) := by
  refine ⟨rfl, ?_⟩
  exact db_cache_idempotent.1 registryNoEnv sampleSnapshot sampleSnapshot
    emptyState (Value.str "f.db") (Value.db 0) sampleSnapshot cacheState 0 0
    rfl rfl rfl rfl (by decide) rfl
